import Mathlib

/-!
Shallow embedding of the Game of Life simulator in `src/main.rs`
(struct `Stats`, struct `App` and its methods, and the key-event /
tick handling of the main loop), together with theorems checking the
specification's claims about it.

Modelling conventions:
* `u64` statistics counters are modelled as `Nat` (their increments per
  generation are bounded by the grid area, far from overflow).
* The grid `Vec<Vec<bool>>` is a `List (List Bool)`; indexing uses `getD`
  with a default, which agrees with Rust's (panicking) indexing on all
  in-bounds accesses, the only ones the program performs.
* The `i32` coordinate arithmetic of `count_neighbors` is modelled on `Int`
  with `Int.emod`, which coincides with Rust's `rem_euclid`.
* The `rand::thread_rng` draws of `App::new` are abstracted as an oracle
  `rng : Nat → Nat → Bool` giving the `gen_bool(0.3)` outcome per cell.
* The `sys : System` field and `refresh_memory` call are omitted: they feed
  the statistics display only and never influence the simulation state.
-/

namespace GameOfLife

/-- Rust struct `Stats`: statistics about the simulation. -/
structure Stats where
  generation : Nat
  cells_created : Nat
  cells_destroyed : Nat
  current_population : Nat
deriving DecidableEq

/-- `Stats::new`: all counters zero. -/
def Stats.new : Stats :=
  { generation := 0, cells_created := 0, cells_destroyed := 0, current_population := 0 }

/-- Rust struct `App` (without the display-only `sys` field). -/
structure App where
  grid : List (List Bool)
  width : Nat
  height : Nat
  running : Bool
  stats : Stats
deriving DecidableEq

/-- Read cell `(x, y)` of a grid: `grid[y][x]`. -/
def getCell (g : List (List Bool)) (y x : Nat) : Bool :=
  (g.getD y []).getD x false

/-- Write cell `(x, y)` of a grid: `grid[y][x] = b`. -/
def writeCell (g : List (List Bool)) (y x : Nat) (b : Bool) : List (List Bool) :=
  g.set y ((g.getD y []).set x b)

/-- Count of live cells in a grid (`App::count_total_alive` on a grid value). -/
def countAliveGrid (g : List (List Bool)) : Nat :=
  (g.map fun row => row.countP fun c => c).sum

/-- `App::count_total_alive`. -/
def count_total_alive (a : App) : Nat :=
  countAliveGrid a.grid

/-- The 8 neighbor offsets `(dy, dx)` in the order the two `for` loops of
`App::count_neighbors` visit them (`dy` outer, `dx` inner, skipping `(0, 0)`). -/
def neighborOffsets : List (Int × Int) :=
  [(-1, -1), (-1, 0), (-1, 1), (0, -1), (0, 1), (1, -1), (1, 0), (1, 1)]

/-- `App::count_neighbors`: live cells among the 8 toroidally wrapped
neighbors of `(x, y)`, each coordinate wrapped with `rem_euclid`. -/
def count_neighbors (a : App) (x y : Nat) : Nat :=
  neighborOffsets.foldl
    (fun count d =>
      if getCell a.grid ((((y : Int) + d.1) % (a.height : Int)).toNat)
          ((((x : Int) + d.2) % (a.width : Int)).toNat) then
        count + 1
      else count)
    0

/-- The `match (cell, live_neighbors)` of `App::update`, returning the new
state together with the increments to `cells_created` and `cells_destroyed`. -/
def cellTransition (cell : Bool) (n : Nat) : Bool × Nat × Nat :=
  if cell then
    if n < 2 then (false, 0, 1)
    else if n = 2 ∨ n = 3 then (true, 0, 0)
    else if n > 3 then (false, 0, 1)
    else (cell, 0, 0)
  else
    if n = 3 then (true, 1, 0)
    else (cell, 0, 0)

/-- The double `for` loop of `App::update`: starting from a clone of the
grid, write the transition of every cell `(x, y)` with `y < height`,
`x < width` into `new_grid`, accumulating the two statistics deltas.
All reads (`count_neighbors`, `self.grid[y][x]`) are from the old app `a`. -/
def updatePass (a : App) : List (List Bool) × Nat × Nat :=
  (List.range a.height).foldl
    (fun acc y =>
      (List.range a.width).foldl
        (fun acc2 x =>
          (writeCell acc2.1 y x (cellTransition (getCell a.grid y x) (count_neighbors a x y)).1,
           acc2.2.1 + (cellTransition (getCell a.grid y x) (count_neighbors a x y)).2.1,
           acc2.2.2 + (cellTransition (getCell a.grid y x) (count_neighbors a x y)).2.2))
        acc)
    (a.grid, 0, 0)

/-- `App::update`: install the new grid, bump `generation`, add the deltas to
the cumulative counters, and recompute `current_population` by full recount. -/
def update (a : App) : App :=
  { a with
    grid := (updatePass a).1,
    stats :=
      { generation := a.stats.generation + 1,
        cells_created := a.stats.cells_created + (updatePass a).2.1,
        cells_destroyed := a.stats.cells_destroyed + (updatePass a).2.2,
        current_population := countAliveGrid (updatePass a).1 } }

/-- `App::toggle_running`. -/
def toggle_running (a : App) : App :=
  { a with running := !a.running }

/-- `App::new`: a `height × width` grid whose cell `(x, y)` is alive exactly
when the random oracle says so, statistics all zero except the initial
population count, and the simulation paused. -/
def App.new (width height : Nat) (rng : Nat → Nat → Bool) : App :=
  { grid := (List.range height).map fun y => (List.range width).map fun x => rng y x,
    width := width,
    height := height,
    running := false,
    stats := { Stats.new with
      current_population :=
        countAliveGrid ((List.range height).map fun y => (List.range width).map fun x => rng y x) } }

/-- Key events the main loop distinguishes besides `q` (which terminates the
loop before the tick check and so never reaches the code modelled here):
space, Enter, and any other key. -/
inductive Key
  | space
  | enter
  | other
deriving DecidableEq

/-- One non-quit iteration of the `loop` in `main`: handle at most one polled
key event, then, if the tick interval has elapsed (`tickDue`) and the
simulation is running, advance one generation. -/
def loopIter (a : App) (ev : Option Key) (tickDue : Bool) : App :=
  let a1 :=
    match ev with
    | some Key.space => toggle_running a
    | some Key.enter => if a.running then a else update a
    | _ => a
  if tickDue && a1.running then update a1 else a1

/-- A sequence of loop iterations, each with its own event and tick flag. -/
def runIters (a : App) (l : List (Option Key × Bool)) : App :=
  l.foldl (fun s p => loopIter s p.1 p.2) a

/-- The grid-shape invariant: exactly `height` rows, each of length `width`. -/
def Shaped (a : App) : Prop :=
  a.grid.length = a.height ∧ ∀ row ∈ a.grid, row.length = a.width

instance (a : App) : Decidable (Shaped a) := by
  unfold Shaped
  infer_instance

/-! Spec-side formulations, used to state the claims. -/

/-- New state of cell `(x, y)` as a pure function of the old app. -/
def nextCell (a : App) (x y : Nat) : Bool :=
  (cellTransition (getCell a.grid y x) (count_neighbors a x y)).1

/-- Contribution of cell `(x, y)` to the `cells_created` delta. -/
def createdDelta (a : App) (x y : Nat) : Nat :=
  (cellTransition (getCell a.grid y x) (count_neighbors a x y)).2.1

/-- Contribution of cell `(x, y)` to the `cells_destroyed` delta. -/
def destroyedDelta (a : App) (x y : Nat) : Nat :=
  (cellTransition (getCell a.grid y x) (count_neighbors a x y)).2.2

/-- The next generation as a pure pointwise function of the old grid, as the
spec words it. -/
def next_grid_pure (a : App) : List (List Bool) :=
  (List.range a.height).map fun y => (List.range a.width).map fun x => nextCell a x y

/-- Total `cells_created` delta of one generation. -/
def createdSum (a : App) : Nat :=
  ((List.range a.height).map fun y =>
    ((List.range a.width).map fun x => createdDelta a x y).sum).sum

/-- Total `cells_destroyed` delta of one generation. -/
def destroyedSum (a : App) : Nat :=
  ((List.range a.height).map fun y =>
    ((List.range a.width).map fun x => destroyedDelta a x y).sum).sum

/-- The transition rule exactly as the spec states it, by cases on the old
state and the neighbor count. -/
def specRule (alive : Bool) (n : Nat) : Bool :=
  if alive then
    if n < 2 then false
    else if n = 2 ∨ n = 3 then true
    else false
  else
    decide (n = 3)

/-- Neighbor counting as the spec words it: the number of the 8 offsets whose
Euclidean-wrapped target cell is alive. -/
def count_neighbors_spec (a : App) (x y : Nat) : Nat :=
  neighborOffsets.countP fun d =>
    getCell a.grid ((((y : Int) + d.1) % (a.height : Int)).toNat)
      ((((x : Int) + d.2) % (a.width : Int)).toNat)

/-! Concrete states used as test inputs. -/

/-- A 1×1 grid whose only cell is alive. -/
def live1 : App :=
  { grid := [[true]], width := 1, height := 1, running := false, stats := Stats.new }

/-- A 1×1 grid whose only cell is dead. -/
def dead1 : App :=
  { grid := [[false]], width := 1, height := 1, running := false, stats := Stats.new }

/-- A 2×2 grid with a single live cell at `(0, 0)`. -/
def corner2 : App :=
  { grid := [[true, false], [false, false]], width := 2, height := 2, running := false,
    stats := Stats.new }

/-- A 1×1 app in the Running state. -/
def runningOne : App :=
  { grid := [[false]], width := 1, height := 1, running := true, stats := Stats.new }

/-- A 2×2 app with live cells only in column 0, to exercise horizontal wrap. -/
def column2 : App :=
  { grid := [[true, false], [true, false]], width := 2, height := 2, running := false,
    stats := Stats.new }

/-! Generic fold and list lemmas. -/

lemma foldl_count {α : Type} (p : α → Bool) :
    ∀ (l : List α) (n : Nat),
      l.foldl (fun c d => if p d then c + 1 else c) n = n + l.countP p := by
  intro l
  induction l with
  | nil => intro n; simp
  | cons x xs ih =>
    intro n
    simp only [List.foldl_cons, List.countP_cons, ih]
    by_cases h : p x
    · simp [h]
      omega
    · simp [h]

lemma foldl_add {α : Type} (d : α → Nat) :
    ∀ (l : List α) (n : Nat),
      l.foldl (fun c x => c + d x) n = n + (l.map d).sum := by
  intro l
  induction l with
  | nil => intro n; simp
  | cons x xs ih =>
    intro n
    simp only [List.foldl_cons, List.map_cons, List.sum_cons, ih]
    omega

lemma foldl_triple {α β γ δ : Type} (f : α → δ → α) (g : β → δ → β) (k : γ → δ → γ) :
    ∀ (l : List δ) (a : α) (b : β) (c : γ),
      l.foldl (fun p d => (f p.1 d, g p.2.1 d, k p.2.2 d)) (a, b, c) =
        (l.foldl f a, l.foldl g b, l.foldl k c) := by
  intro l
  induction l with
  | nil => intro a b c; rfl
  | cons x xs ih => intro a b c; simp only [List.foldl_cons]; exact ih (f a x) (g b x) (k c x)

lemma getD_set_self {α : Type} :
    ∀ (l : List α) (n : Nat) (b d : α), n < l.length → (l.set n b).getD n d = b := by
  intro l
  induction l with
  | nil => intro n b d h; simp at h
  | cons a as ih =>
    intro n b d h
    cases n with
    | zero => rfl
    | succ m =>
      simp only [List.set_cons_succ, List.getD_cons_succ]
      exact ih m b d (by simpa using h)

lemma getD_set_ne {α : Type} :
    ∀ (l : List α) (m n : Nat) (b d : α), m ≠ n → (l.set m b).getD n d = l.getD n d := by
  intro l
  induction l with
  | nil => intro m n b d h; rfl
  | cons a as ih =>
    intro m n b d h
    cases m with
    | zero =>
      cases n with
      | zero => exact absurd rfl h
      | succ j => rfl
    | succ i =>
      cases n with
      | zero => rfl
      | succ j =>
        simp only [List.set_cons_succ, List.getD_cons_succ]
        exact ih i j b d (fun hij => h (by rw [hij]))

lemma set_getD_self {α : Type} :
    ∀ (l : List α) (n : Nat) (d : α), n < l.length → l.set n (l.getD n d) = l := by
  intro l
  induction l with
  | nil => intro n d h; simp at h
  | cons a as ih =>
    intro n d h
    cases n with
    | zero => rfl
    | succ m =>
      simp only [List.set_cons_succ, List.getD_cons_succ]
      rw [ih m d (by simpa using h)]

lemma getD_mem {α : Type} :
    ∀ (l : List α) (n : Nat) (d : α), n < l.length → l.getD n d ∈ l := by
  intro l
  induction l with
  | nil => intro n d h; simp at h
  | cons a as ih =>
    intro n d h
    cases n with
    | zero => simp [List.getD_cons_zero]
    | succ m =>
      simp only [List.getD_cons_succ]
      exact List.mem_cons_of_mem a (ih m d (by simpa using h))

lemma ext_getD {α : Type} (d : α) :
    ∀ (l1 l2 : List α), l1.length = l2.length →
      (∀ i, i < l1.length → l1.getD i d = l2.getD i d) → l1 = l2 := by
  intro l1
  induction l1 with
  | nil =>
    intro l2 hlen _
    exact (List.length_eq_zero.mp hlen.symm).symm
  | cons a as ih =>
    intro l2 hlen hpt
    cases l2 with
    | nil => simp at hlen
    | cons b bs =>
      have h0 := hpt 0 (by simp)
      simp only [List.getD_cons_zero] at h0
      have hrest : as = bs := by
        refine ih bs (by simpa using hlen) ?_
        intro i hi
        have := hpt (i + 1) (by simpa using Nat.succ_lt_succ hi)
        simpa using this
      rw [h0, hrest]

lemma getD_map_range {α : Type} (f : Nat → α) (d : α) :
    ∀ (W n : Nat), n < W → ((List.range W).map f).getD n d = f n := by
  intro W
  induction W with
  | zero => intro n h; omega
  | succ V ih =>
    intro n h
    rw [List.range_succ, List.map_append]
    by_cases hn : n < V
    · rw [List.getD_append _ _ _ _ (by simpa using hn)]
      exact ih n hn
    · have hnv : n = V := by omega
      subst hnv
      rw [List.getD_append_right _ _ _ _ (by simp)]
      simp

lemma foldl_set_length {α : Type} (v : Nat → α) :
    ∀ (l : List Nat) (r : List α),
      (l.foldl (fun r2 x => r2.set x (v x)) r).length = r.length := by
  intro l
  induction l with
  | nil => intro r; rfl
  | cons x xs ih =>
    intro r
    simp only [List.foldl_cons, ih, List.length_set]

lemma foldl_set_getD {α : Type} (v : Nat → α) (d : α) :
    ∀ (W : Nat) (r : List α), W ≤ r.length → ∀ i,
      ((List.range W).foldl (fun r2 x => r2.set x (v x)) r).getD i d =
        if i < W then v i else r.getD i d := by
  intro W
  induction W with
  | zero => intro r _ i; simp
  | succ V ih =>
    intro r h i
    rw [List.range_succ, List.foldl_append]
    simp only [List.foldl_cons, List.foldl_nil]
    have hlen : ((List.range V).foldl (fun r2 x => r2.set x (v x)) r).length = r.length :=
      foldl_set_length v _ r
    by_cases hiv : i = V
    · subst hiv
      rw [getD_set_self _ _ _ _ (by omega)]
      simp
    · rw [getD_set_ne _ _ _ _ _ (fun hvi => hiv hvi.symm)]
      rw [ih r (by omega) i]
      by_cases hi : i < V
      · rw [if_pos hi, if_pos (show i < V + 1 by omega)]
      · rw [if_neg hi, if_neg (show ¬ i < V + 1 by omega)]

lemma foldl_set_range_eq_map {α : Type} (v : Nat → α) (W : Nat) (r : List α)
    (h : r.length = W) :
    (List.range W).foldl (fun r2 x => r2.set x (v x)) r = (List.range W).map v := by
  cases r with
  | nil =>
    have hW : W = 0 := by simpa using h.symm
    subst hW
    simp
  | cons a as =>
    refine ext_getD a _ _ ?_ ?_
    · rw [foldl_set_length, h, List.length_map, List.length_range]
    · intro i hi
      rw [foldl_set_length, h] at hi
      rw [foldl_set_getD v _ W _ (by omega) i, if_pos hi, getD_map_range v _ W i hi]

/-! Decomposing the imperative double loop of `update`. -/

lemma row_write_fold (v : Nat → Bool) (y : Nat) :
    ∀ (l : List Nat) (g : List (List Bool)), y < g.length →
      l.foldl (fun g2 x => writeCell g2 y x (v x)) g =
        g.set y (l.foldl (fun r x => r.set x (v x)) (g.getD y [])) := by
  intro l
  induction l with
  | nil =>
    intro g hy
    simp only [List.foldl_nil]
    exact (set_getD_self g y [] hy).symm
  | cons x xs ih =>
    intro g hy
    simp only [List.foldl_cons]
    rw [ih (writeCell g y x (v x)) (by simpa [writeCell] using hy)]
    unfold writeCell
    rw [getD_set_self g y _ [] hy, List.set_set]

lemma grid_write_fold (v : Nat → Nat → Bool) (W : Nat) :
    ∀ (l : List Nat) (g : List (List Bool)),
      (∀ row ∈ g, row.length = W) → (∀ y ∈ l, y < g.length) →
      l.foldl (fun g2 y => (List.range W).foldl (fun g3 x => writeCell g3 y x (v y x)) g2) g =
        l.foldl (fun g2 y => g2.set y ((List.range W).map (v y))) g := by
  intro l
  induction l with
  | nil => intro g _ _; rfl
  | cons y ys ih =>
    intro g hrows hbound
    have hy : y < g.length := hbound y (List.mem_cons_self y ys)
    simp only [List.foldl_cons]
    rw [row_write_fold (v y) y (List.range W) g hy]
    rw [foldl_set_range_eq_map (v y) W (g.getD y []) (hrows _ (getD_mem g y [] hy))]
    refine ih (g.set y ((List.range W).map (v y))) ?_ ?_
    · intro row hrow
      rcases List.mem_or_eq_of_mem_set hrow with h | h
      · exact hrows row h
      · rw [h]
        simp
    · intro z hz
      rw [List.length_set]
      exact hbound z (List.mem_cons_of_mem y hz)

/-- The double loop of `update` splits into the pure next grid and the two
counter sums. The grid component needs the shape invariant; the counters do
not. -/
lemma updatePass_triple (a : App) :
    updatePass a =
      ((List.range a.height).foldl
        (fun g y => (List.range a.width).foldl (fun g2 x => writeCell g2 y x (nextCell a x y)) g)
        a.grid,
       createdSum a, destroyedSum a) := by
  unfold updatePass
  have hstep : (fun (acc : List (List Bool) × Nat × Nat) y =>
      (List.range a.width).foldl
        (fun acc2 x =>
          (writeCell acc2.1 y x (cellTransition (getCell a.grid y x) (count_neighbors a x y)).1,
           acc2.2.1 + (cellTransition (getCell a.grid y x) (count_neighbors a x y)).2.1,
           acc2.2.2 + (cellTransition (getCell a.grid y x) (count_neighbors a x y)).2.2))
        acc) =
      (fun acc y =>
        ((List.range a.width).foldl (fun g2 x => writeCell g2 y x (nextCell a x y)) acc.1,
         (List.range a.width).foldl (fun n x => n + createdDelta a x y) acc.2.1,
         (List.range a.width).foldl (fun n x => n + destroyedDelta a x y) acc.2.2)) := by
    funext acc y
    obtain ⟨g0, c0, d0⟩ := acc
    exact foldl_triple (fun g2 x => writeCell g2 y x (nextCell a x y))
      (fun n x => n + createdDelta a x y)
      (fun n x => n + destroyedDelta a x y)
      (List.range a.width) g0 c0 d0
  rw [hstep]
  rw [foldl_triple (fun g y => (List.range a.width).foldl (fun g2 x => writeCell g2 y x (nextCell a x y)) g)
    (fun n y => (List.range a.width).foldl (fun n2 x => n2 + createdDelta a x y) n)
    (fun n y => (List.range a.width).foldl (fun n2 x => n2 + destroyedDelta a x y) n)
    (List.range a.height) a.grid 0 0]
  simp only [Prod.mk.injEq, true_and]
  refine ⟨?_, ?_⟩
  · have h1 : (fun (n : Nat) y => (List.range a.width).foldl (fun n2 x => n2 + createdDelta a x y) n) =
        (fun n y => n + ((List.range a.width).map fun x => createdDelta a x y).sum) := by
      funext n y
      exact foldl_add _ (List.range a.width) n
    rw [h1, foldl_add _ (List.range a.height) 0]
    unfold createdSum
    simp
  · have h2 : (fun (n : Nat) y => (List.range a.width).foldl (fun n2 x => n2 + destroyedDelta a x y) n) =
        (fun n y => n + ((List.range a.width).map fun x => destroyedDelta a x y).sum) := by
      funext n y
      exact foldl_add _ (List.range a.width) n
    rw [h2, foldl_add _ (List.range a.height) 0]
    unfold destroyedSum
    simp

lemma updatePass_created (a : App) : (updatePass a).2.1 = createdSum a := by
  rw [updatePass_triple]

lemma updatePass_destroyed (a : App) : (updatePass a).2.2 = destroyedSum a := by
  rw [updatePass_triple]

lemma updatePass_grid (a : App) (h : Shaped a) : (updatePass a).1 = next_grid_pure a := by
  rw [updatePass_triple]
  show (List.range a.height).foldl
      (fun g y => (List.range a.width).foldl (fun g2 x => writeCell g2 y x (nextCell a x y)) g)
      a.grid = _
  rw [grid_write_fold (fun y x => nextCell a x y) a.width (List.range a.height) a.grid h.2
    (fun y hy => by rw [h.1]; exact List.mem_range.mp hy)]
  exact foldl_set_range_eq_map (fun y => (List.range a.width).map fun x => nextCell a x y)
    a.height a.grid h.1

/-! Plain record facts about `update` and `toggle_running`. -/

lemma update_grid (a : App) : (update a).grid = (updatePass a).1 := rfl

lemma update_width (a : App) : (update a).width = a.width := rfl

lemma update_height (a : App) : (update a).height = a.height := rfl

lemma update_running (a : App) : (update a).running = a.running := rfl

lemma update_generation (a : App) : (update a).stats.generation = a.stats.generation + 1 := rfl

lemma update_created (a : App) :
    (update a).stats.cells_created = a.stats.cells_created + createdSum a := by
  show a.stats.cells_created + (updatePass a).2.1 = _
  rw [updatePass_created]

lemma update_destroyed (a : App) :
    (update a).stats.cells_destroyed = a.stats.cells_destroyed + destroyedSum a := by
  show a.stats.cells_destroyed + (updatePass a).2.2 = _
  rw [updatePass_destroyed]

lemma update_population (a : App) :
    (update a).stats.current_population = countAliveGrid (update a).grid := rfl

lemma toggle_stats (a : App) : (toggle_running a).stats = a.stats := rfl

lemma update_grid_pure (a : App) (h : Shaped a) : (update a).grid = next_grid_pure a := by
  rw [update_grid]
  exact updatePass_grid a h

lemma getCell_next_grid_pure (a : App) (x y : Nat) (hx : x < a.width) (hy : y < a.height) :
    getCell (next_grid_pure a) y x = nextCell a x y := by
  unfold next_grid_pure getCell
  rw [getD_map_range _ _ a.height y hy, getD_map_range _ _ a.width x hx]

lemma shaped_next_grid_pure (a : App) : (next_grid_pure a).length = a.height ∧
    ∀ row ∈ next_grid_pure a, row.length = a.width := by
  constructor
  · simp [next_grid_pure]
  · intro row hrow
    unfold next_grid_pure at hrow
    rcases List.mem_map.mp hrow with ⟨y, _, hrw⟩
    rw [← hrw]
    simp

/-! The per-cell transition versus the spec's rule. -/

lemma cellTransition_fst (c : Bool) (n : Nat) : (cellTransition c n).1 = specRule c n := by
  unfold cellTransition specRule
  cases c
  · by_cases h3 : n = 3 <;> simp [h3]
  · by_cases h2 : n < 2
    · simp [h2]
    · by_cases h23 : n = 2 ∨ n = 3
      · simp [h2, h23]
      · have h4 : 3 < n := by omega
        simp [h2, h23, h4]

lemma cellTransition_created_delta (c : Bool) (n : Nat) :
    (cellTransition c n).2.1 = if c = false ∧ n = 3 then 1 else 0 := by
  unfold cellTransition
  cases c
  · by_cases h3 : n = 3 <;> simp [h3]
  · by_cases h2 : n < 2
    · simp [h2]
    · by_cases h23 : n = 2 ∨ n = 3
      · simp [h2, h23]
      · have h4 : 3 < n := by omega
        simp [h2, h23, h4]

lemma cellTransition_destroyed_delta (c : Bool) (n : Nat) :
    (cellTransition c n).2.2 = if c = true ∧ (n < 2 ∨ 3 < n) then 1 else 0 := by
  unfold cellTransition
  cases c
  · by_cases h3 : n = 3 <;> simp [h3]
  · by_cases h2 : n < 2
    · simp [h2]
    · by_cases h23 : n = 2 ∨ n = 3
      · have h4 : ¬ 3 < n := by omega
        simp [h2, h23, h4]
      · have h4 : 3 < n := by omega
        simp [h2, h23, h4]

/-! Statistics monotonicity across loop iterations. -/

lemma le_update_created (a : App) : a.stats.cells_created ≤ (update a).stats.cells_created := by
  rw [update_created]
  exact Nat.le_add_right _ _

lemma le_update_destroyed (a : App) :
    a.stats.cells_destroyed ≤ (update a).stats.cells_destroyed := by
  rw [update_destroyed]
  exact Nat.le_add_right _ _

lemma loopIter_none_eq (a : App) (t : Bool) :
    loopIter a none t = if t && a.running then update a else a := rfl

lemma loopIter_other_eq (a : App) (t : Bool) :
    loopIter a (some Key.other) t = if t && a.running then update a else a := rfl

lemma loopIter_space_eq (a : App) (t : Bool) :
    loopIter a (some Key.space) t =
      if t && (toggle_running a).running then update (toggle_running a) else toggle_running a :=
  rfl

lemma loopIter_enter_eq (a : App) (t : Bool) :
    loopIter a (some Key.enter) t =
      if t && (if a.running then a else update a).running then
        update (if a.running then a else update a)
      else if a.running then a else update a :=
  rfl

lemma loopIter_cases (a : App) (ev : Option Key) (t : Bool) :
    loopIter a ev t = a ∨ loopIter a ev t = update a ∨
    loopIter a ev t = toggle_running a ∨ loopIter a ev t = update (toggle_running a) ∨
    loopIter a ev t = update (update a) := by
  rcases ev with _ | k
  · rw [loopIter_none_eq]
    by_cases h : (t && a.running) = true
    · rw [if_pos h]
      right; left; rfl
    · rw [if_neg h]
      left; rfl
  · cases k
    · rw [loopIter_space_eq]
      by_cases h : (t && (toggle_running a).running) = true
      · rw [if_pos h]
        right; right; right; left; rfl
      · rw [if_neg h]
        right; right; left; rfl
    · rw [loopIter_enter_eq]
      by_cases hr : a.running = true
      · rw [if_pos hr]
        by_cases h : (t && a.running) = true
        · rw [if_pos h]
          right; left; rfl
        · rw [if_neg h]
          left; rfl
      · rw [if_neg hr]
        by_cases h : (t && (update a).running) = true
        · rw [if_pos h]
          right; right; right; right; rfl
        · rw [if_neg h]
          right; left; rfl
    · rw [loopIter_other_eq]
      by_cases h : (t && a.running) = true
      · rw [if_pos h]
        right; left; rfl
      · rw [if_neg h]
        left; rfl

lemma loopIter_created_mono (a : App) (ev : Option Key) (t : Bool) :
    a.stats.cells_created ≤ (loopIter a ev t).stats.cells_created := by
  rcases loopIter_cases a ev t with h | h | h | h | h
  all_goals rw [h]
  all_goals first
    | exact le_refl _
    | exact le_update_created a
    | exact le_update_created (toggle_running a)
    | exact le_trans (le_update_created a) (le_update_created (update a))

lemma loopIter_destroyed_mono (a : App) (ev : Option Key) (t : Bool) :
    a.stats.cells_destroyed ≤ (loopIter a ev t).stats.cells_destroyed := by
  rcases loopIter_cases a ev t with h | h | h | h | h
  all_goals rw [h]
  all_goals first
    | exact le_refl _
    | exact le_update_destroyed a
    | exact le_update_destroyed (toggle_running a)
    | exact le_trans (le_update_destroyed a) (le_update_destroyed (update a))

lemma runIters_created_mono (a : App) (l : List (Option Key × Bool)) :
    a.stats.cells_created ≤ (runIters a l).stats.cells_created := by
  induction l generalizing a with
  | nil => exact le_refl _
  | cons p ps ih =>
    exact le_trans (loopIter_created_mono a p.1 p.2) (ih (loopIter a p.1 p.2))

lemma runIters_destroyed_mono (a : App) (l : List (Option Key × Bool)) :
    a.stats.cells_destroyed ≤ (runIters a l).stats.cells_destroyed := by
  induction l generalizing a with
  | nil => exact le_refl _
  | cons p ps ih =>
    exact le_trans (loopIter_destroyed_mono a p.1 p.2) (ih (loopIter a p.1 p.2))

/-! Neighbor counting facts. -/

lemma count_neighbors_eq_countP (a : App) (x y : Nat) :
    count_neighbors a x y = count_neighbors_spec a x y := by
  unfold count_neighbors count_neighbors_spec
  rw [foldl_count _ neighborOffsets 0, Nat.zero_add]

lemma count_neighbors_le_eight (a : App) (x y : Nat) : count_neighbors a x y ≤ 8 := by
  rw [count_neighbors_eq_countP]
  calc count_neighbors_spec a x y ≤ neighborOffsets.length := List.countP_le_length _
    _ = 8 := rfl

/-! Degenerate dimensions. -/

lemma foldl_skip {α β : Type} (l : List β) (init : α) :
    l.foldl (fun acc _ => acc) init = init := by
  induction l with
  | nil => rfl
  | cons b bs ih => exact ih

lemma sum_map_zero {α : Type} (l : List α) : (l.map fun _ => (0 : Nat)).sum = 0 := by
  induction l with
  | nil => rfl
  | cons b bs ih => simp [ih]

lemma updatePass_degenerate (a : App) (hd : a.width = 0 ∨ a.height = 0) :
    updatePass a = (a.grid, 0, 0) := by
  unfold updatePass
  rcases hd with hw | hh
  · rw [hw]
    simp only [List.range_zero, List.foldl_nil]
    exact foldl_skip _ _
  · rw [hh]
    simp only [List.range_zero, List.foldl_nil]

/-! The claims. -/

/-- Claim C1: for every (well-shaped) grid and every in-range cell `(x, y)`,
`update` sets the cell's next state by the classic Game-of-Life rule applied
to its prior state and neighbor count `n` (live with `n < 2` or `n > 3` dies,
live with `n ∈ {2, 3}` survives, dead with `n = 3` is born, dead otherwise
stays dead), `cells_destroyed` grows by one per death and `cells_created` by
one per birth, summed over the whole grid. -/
theorem C1_update_rule (a : App) (h : Shaped a) (x y : Nat)
    (hx : x < a.width) (hy : y < a.height) :
    getCell (update a).grid y x = specRule (getCell a.grid y x) (count_neighbors a x y)
    ∧ (update a).stats.cells_created = a.stats.cells_created + createdSum a
    ∧ (update a).stats.cells_destroyed = a.stats.cells_destroyed + destroyedSum a
    ∧ createdDelta a x y =
        (if getCell a.grid y x = false ∧ count_neighbors a x y = 3 then 1 else 0)
    ∧ destroyedDelta a x y =
        (if getCell a.grid y x = true ∧ (count_neighbors a x y < 2 ∨ 3 < count_neighbors a x y)
         then 1 else 0) := by
  refine ⟨?_, update_created a, update_destroyed a,
    cellTransition_created_delta _ _, cellTransition_destroyed_delta _ _⟩
  rw [update_grid_pure a h, getCell_next_grid_pure a x y hx hy]
  exact cellTransition_fst _ _

/-- Witness for C1 at the 1×1 live grid. -/
theorem C1_update_rule_witness :
    Shaped live1 ∧ 0 < live1.width ∧ 0 < live1.height ∧
    (getCell (update live1).grid 0 0 =
        specRule (getCell live1.grid 0 0) (count_neighbors live1 0 0)
      ∧ (update live1).stats.cells_created = live1.stats.cells_created + createdSum live1
      ∧ (update live1).stats.cells_destroyed = live1.stats.cells_destroyed + destroyedSum live1
      ∧ createdDelta live1 0 0 =
          (if getCell live1.grid 0 0 = false ∧ count_neighbors live1 0 0 = 3 then 1 else 0)
      ∧ destroyedDelta live1 0 0 =
          (if getCell live1.grid 0 0 = true ∧
              (count_neighbors live1 0 0 < 2 ∨ 3 < count_neighbors live1 0 0)
           then 1 else 0)) :=
  ⟨by decide, by decide, by decide,
   C1_update_rule live1 (by decide) 0 0 (by decide) (by decide)⟩

/-- Claim C2: `update` computes the whole next generation from a snapshot of
the prior generation: the new grid equals a pure function of the old grid
applied pointwise (neighbor counts read the pre-update grid only). -/
theorem C2_snapshot_update (a : App) (h : Shaped a) :
    (update a).grid = next_grid_pure a
    ∧ ∀ x y, x < a.width → y < a.height →
        getCell (update a).grid y x = nextCell a x y := by
  refine ⟨update_grid_pure a h, ?_⟩
  intro x y hx hy
  rw [update_grid_pure a h]
  exact getCell_next_grid_pure a x y hx hy

/-- Witness for C2 at the 2×2 single-live-cell grid. -/
theorem C2_snapshot_update_witness :
    Shaped corner2 ∧
    ((update corner2).grid = next_grid_pure corner2
      ∧ ∀ x y, x < corner2.width → y < corner2.height →
          getCell (update corner2).grid y x = nextCell corner2 x y) :=
  ⟨by decide, C2_snapshot_update corner2 (by decide)⟩

/-- Claim C3: on a grid with positive dimensions, `count_neighbors x y` is
the count (at most 8) of live cells at the 8 offsets of `{-1,0,1}²` minus
`(0,0)`, each coordinate wrapped by Euclidean modulo into range before
indexing; in particular a live cell at `(0, y)` is counted as a neighbor of
`(width - 1, y)`. -/
theorem C3_count_neighbors_wrap (a : App) (x y : Nat) (hw : 0 < a.width) (_hh : 0 < a.height)
    (_hx : x < a.width) (hy : y < a.height) :
    count_neighbors a x y = count_neighbors_spec a x y
    ∧ count_neighbors a x y ≤ 8
    ∧ (getCell a.grid y 0 = true → 1 ≤ count_neighbors a (a.width - 1) y) := by
  refine ⟨count_neighbors_eq_countP a x y, count_neighbors_le_eight a x y, ?_⟩
  intro hlive
  rw [count_neighbors_eq_countP]
  unfold count_neighbors_spec
  have hy2 : ((y : Int) + 0) % (a.height : Int) = (y : Int) := by
    rw [Int.add_zero]
    exact Int.emod_eq_of_lt (by omega) (by exact_mod_cast hy)
  have hx2 : ((((a.width - 1 : Nat) : Int) + 1)) % (a.width : Int) = 0 := by
    have hcast : ((a.width - 1 : Nat) : Int) + 1 = (a.width : Int) := by omega
    rw [hcast, Int.emod_self]
  refine List.countP_pos_iff.mpr ⟨((0 : Int), (1 : Int)), by decide, ?_⟩
  show getCell a.grid ((((y : Int) + 0) % (a.height : Int)).toNat)
      (((((a.width - 1 : Nat) : Int) + 1) % (a.width : Int)).toNat) = true
  rw [hy2, hx2]
  simpa using hlive

/-- Witness for C3 at the 2×2 grid live in column 0, queried at `(1, 0)`. -/
theorem C3_count_neighbors_wrap_witness :
    0 < column2.width ∧ 0 < column2.height ∧ 1 < column2.width ∧ 0 < column2.height ∧
    (count_neighbors column2 1 0 = count_neighbors_spec column2 1 0
      ∧ count_neighbors column2 1 0 ≤ 8
      ∧ (getCell column2.grid 0 0 = true → 1 ≤ count_neighbors column2 (column2.width - 1) 0)) :=
  ⟨by decide, by decide, by decide, by decide,
   C3_count_neighbors_wrap column2 1 0 (by decide) (by decide) (by decide) (by decide)⟩

/-- Claim C4: every `update` bumps `generation` by exactly 1 and recomputes
`current_population` as the exact live count of the new grid; the cumulative
`cells_created` and `cells_destroyed` counters are non-decreasing across any
sequence of loop iterations and are never reset. -/
theorem C4_stats_invariants (a : App) (l : List (Option Key × Bool)) :
    (update a).stats.generation = a.stats.generation + 1
    ∧ (update a).stats.current_population = countAliveGrid (update a).grid
    ∧ a.stats.cells_created ≤ (runIters a l).stats.cells_created
    ∧ a.stats.cells_destroyed ≤ (runIters a l).stats.cells_destroyed :=
  ⟨update_generation a, update_population a,
   runIters_created_mono a l, runIters_destroyed_mono a l⟩

/-- Claim C5: `update` is deterministic: two app states with identical grids
and dimensions produce identical new grids and identical statistics deltas;
no randomness is consumed after construction. -/
theorem C5_update_deterministic (a b : App) (hg : a.grid = b.grid) (hw : a.width = b.width)
    (hh : a.height = b.height) :
    (update a).grid = (update b).grid
    ∧ (update a).stats.generation - a.stats.generation =
        (update b).stats.generation - b.stats.generation
    ∧ (update a).stats.cells_created - a.stats.cells_created =
        (update b).stats.cells_created - b.stats.cells_created
    ∧ (update a).stats.cells_destroyed - a.stats.cells_destroyed =
        (update b).stats.cells_destroyed - b.stats.cells_destroyed
    ∧ (update a).stats.current_population = (update b).stats.current_population := by
  obtain ⟨ga, wa, ha, ra, sa⟩ := a
  obtain ⟨gb, wb, hb, rb, sb⟩ := b
  simp only at hg hw hh
  subst hg; subst hw; subst hh
  have hpass : updatePass ⟨ga, wa, ha, ra, sa⟩ = updatePass ⟨ga, wa, ha, rb, sb⟩ := rfl
  refine ⟨?_, ?_, ?_, ?_, ?_⟩
  · show (updatePass ⟨ga, wa, ha, ra, sa⟩).1 = (updatePass ⟨ga, wa, ha, rb, sb⟩).1
    rw [hpass]
  · rw [update_generation, update_generation]
    omega
  · rw [update_created, update_created]
    have hcs : createdSum ⟨ga, wa, ha, ra, sa⟩ = createdSum ⟨ga, wa, ha, rb, sb⟩ := rfl
    rw [hcs]
    omega
  · rw [update_destroyed, update_destroyed]
    have hds : destroyedSum ⟨ga, wa, ha, ra, sa⟩ = destroyedSum ⟨ga, wa, ha, rb, sb⟩ := rfl
    rw [hds]
    omega
  · show countAliveGrid (updatePass ⟨ga, wa, ha, ra, sa⟩).1 =
      countAliveGrid (updatePass ⟨ga, wa, ha, rb, sb⟩).1
    rw [hpass]

/-- Witness for C5: the paused and the running 1×1 dead apps have equal grids
and dimensions, and updating each gives the same grid and deltas. -/
theorem C5_update_deterministic_witness :
    dead1.grid = runningOne.grid ∧ dead1.width = runningOne.width ∧
    dead1.height = runningOne.height ∧
    ((update dead1).grid = (update runningOne).grid
      ∧ (update dead1).stats.generation - dead1.stats.generation =
          (update runningOne).stats.generation - runningOne.stats.generation
      ∧ (update dead1).stats.cells_created - dead1.stats.cells_created =
          (update runningOne).stats.cells_created - runningOne.stats.cells_created
      ∧ (update dead1).stats.cells_destroyed - dead1.stats.cells_destroyed =
          (update runningOne).stats.cells_destroyed - runningOne.stats.cells_destroyed
      ∧ (update dead1).stats.current_population = (update runningOne).stats.current_population) :=
  ⟨rfl, rfl, rfl, C5_update_deterministic dead1 runningOne rfl rfl rfl⟩

/-- Claim C6: a step event (Enter) calls `update` exactly once iff the run
state is Paused (while Running it adds nothing beyond what the tick does);
iterations whose run state stays Paused and that receive no step event leave
the generation counter and the grid unchanged; one step while Paused advances
the generation by exactly 1. -/
theorem C6_step_gating (a : App) (t : Bool) (ev : Option Key) :
    (a.running = false → loopIter a (some Key.enter) t = update a)
    ∧ (a.running = false →
        (loopIter a (some Key.enter) t).stats.generation = a.stats.generation + 1
        ∧ (loopIter a (some Key.enter) t).grid = (update a).grid)
    ∧ (a.running = true → loopIter a (some Key.enter) t = loopIter a none t)
    ∧ (a.running = false → (ev = none ∨ ev = some Key.other) → loopIter a ev t = a) := by
  have h1 : a.running = false → loopIter a (some Key.enter) t = update a := by
    intro h
    rw [loopIter_enter_eq, h]
    simp [update_running, h]
  refine ⟨h1, ?_, ?_, ?_⟩
  · intro h
    rw [h1 h, update_generation]
    exact ⟨rfl, rfl⟩
  · intro h
    rw [loopIter_enter_eq, loopIter_none_eq, if_pos h]
  · intro h hev
    rcases hev with hev | hev
    · subst hev
      rw [loopIter_none_eq]
      simp [h]
    · subst hev
      rw [loopIter_other_eq]
      simp [h]

/-- Witness for C6 at the paused and running 1×1 apps with the tick due. -/
theorem C6_step_gating_witness :
    dead1.running = false ∧ runningOne.running = true ∧
    loopIter dead1 (some Key.enter) true = update dead1 ∧
    (loopIter dead1 (some Key.enter) true).stats.generation = dead1.stats.generation + 1 ∧
    loopIter runningOne (some Key.enter) true = loopIter runningOne none true ∧
    loopIter dead1 none true = dead1 ∧
    loopIter dead1 (some Key.other) true = dead1 :=
  ⟨rfl, rfl,
   (C6_step_gating dead1 true none).1 rfl,
   ((C6_step_gating dead1 true none).2.1 rfl).1,
   (C6_step_gating runningOne true none).2.2.1 rfl,
   (C6_step_gating dead1 true none).2.2.2 rfl (Or.inl rfl),
   (C6_step_gating dead1 true (some Key.other)).2.2.2 rfl (Or.inr rfl)⟩

/-- Claim C7: `toggle_running` flips only the run flag, leaving grid,
dimensions and statistics unchanged, and is an involution. -/
theorem C7_toggle_involution (a : App) :
    (toggle_running a).running = !a.running
    ∧ (toggle_running a).grid = a.grid
    ∧ (toggle_running a).width = a.width
    ∧ (toggle_running a).height = a.height
    ∧ (toggle_running a).stats = a.stats
    ∧ toggle_running (toggle_running a) = a := by
  refine ⟨rfl, rfl, rfl, rfl, rfl, ?_⟩
  show ({ a with running := !(!a.running) } : App) = a
  rw [Bool.not_not]

/-- Claim C8: construction and update preserve the grid shape — exactly
`height` rows of exactly `width` cells — and never change the `width` and
`height` fields. -/
theorem C8_shape_invariant (w h : Nat) (rng : Nat → Nat → Bool) (a : App) (hs : Shaped a) :
    Shaped (App.new w h rng)
    ∧ (App.new w h rng).width = w ∧ (App.new w h rng).height = h
    ∧ Shaped (update a)
    ∧ (update a).width = a.width ∧ (update a).height = a.height := by
  refine ⟨⟨?_, ?_⟩, rfl, rfl, ⟨?_, ?_⟩, rfl, rfl⟩
  · simp [App.new]
  · intro row hrow
    simp only [App.new, List.mem_map] at hrow
    rcases hrow with ⟨y, _, hrw⟩
    rw [← hrw]
    simp [App.new]
  · rw [update_grid_pure a hs, update_height]
    exact (shaped_next_grid_pure a).1
  · intro row hrow
    rw [update_grid_pure a hs] at hrow
    rw [update_width]
    exact (shaped_next_grid_pure a).2 row hrow

/-- Witness for C8 at a 2×3 construction and the 1×1 live app. -/
theorem C8_shape_invariant_witness :
    Shaped live1 ∧
    (Shaped (App.new 2 3 fun _ _ => true)
      ∧ (App.new 2 3 fun _ _ => true).width = 2 ∧ (App.new 2 3 fun _ _ => true).height = 3
      ∧ Shaped (update live1)
      ∧ (update live1).width = live1.width ∧ (update live1).height = live1.height) :=
  ⟨by decide, C8_shape_invariant 2 3 (fun _ _ => true) live1 (by decide)⟩

/-- Claim C9: on grids with a dimension ≤ 2 the wrapped offsets coincide, so
cells are counted more than once — on a 1×1 grid the sole cell counts itself
8 times (a lone live cell then dies of overpopulation at the next update, and
a dead cell counts 0), and on a 2×2 grid a single live cell is seen twice by
its horizontal neighbor. -/
theorem C9_small_grid_double_count :
    count_neighbors live1 0 0 = 8
    ∧ count_total_alive live1 = 1
    ∧ (update live1).grid = [[false]]
    ∧ (update live1).stats.cells_destroyed = 1
    ∧ (update live1).stats.current_population = 0
    ∧ count_neighbors dead1 0 0 = 0
    ∧ count_neighbors corner2 1 0 = 2
    ∧ count_total_alive corner2 = 1 := by
  decide

/-- Claim C10: `App::new` performs no dimension validation: width or height 0
gives a degenerate grid with population 0, and `update` on a degenerate app
is total — the loops run zero iterations, so the grid is unchanged, the
deltas are 0, and only `generation` is bumped (`current_population` is
recomputed as the unchanged grid's live count). -/
theorem C10_degenerate_total (w h : Nat) (rng : Nat → Nat → Bool) (a : App)
    (hd : a.width = 0 ∨ a.height = 0) :
    (App.new 0 h rng).stats.current_population = 0
    ∧ (App.new w 0 rng).stats.current_population = 0
    ∧ (update a).grid = a.grid
    ∧ (update a).stats.generation = a.stats.generation + 1
    ∧ (update a).stats.cells_created = a.stats.cells_created
    ∧ (update a).stats.cells_destroyed = a.stats.cells_destroyed
    ∧ (update a).stats.current_population = countAliveGrid a.grid
    ∧ (update a).running = a.running
    ∧ (update a).width = a.width ∧ (update a).height = a.height := by
  have hpass := updatePass_degenerate a hd
  refine ⟨?_, ?_, ?_, update_generation a, ?_, ?_, ?_, rfl, rfl, rfl⟩
  · show countAliveGrid ((List.range h).map fun y => (List.range 0).map fun x => rng y x) = 0
    simp only [List.range_zero, List.map_nil]
    unfold countAliveGrid
    rw [show ((List.range h).map fun _ => ([] : List Bool)).map (fun row => row.countP fun c => c) =
      (List.range h).map fun _ => (0 : Nat) by rw [List.map_map]; rfl]
    exact sum_map_zero _
  · rfl
  · rw [update_grid, hpass]
  · show a.stats.cells_created + (updatePass a).2.1 = a.stats.cells_created
    rw [hpass]
    simp
  · show a.stats.cells_destroyed + (updatePass a).2.2 = a.stats.cells_destroyed
    rw [hpass]
    simp
  · show countAliveGrid (updatePass a).1 = countAliveGrid a.grid
    rw [hpass]

/-- Witness for C10 at width 0, height 2. -/
theorem C10_degenerate_total_witness :
    ((App.new 0 2 fun _ _ => true).width = 0 ∨ (App.new 0 2 fun _ _ => true).height = 0) ∧
    ((App.new 0 3 fun _ _ => true).stats.current_population = 0
      ∧ (App.new 1 0 fun _ _ => true).stats.current_population = 0
      ∧ (update (App.new 0 2 fun _ _ => true)).grid = (App.new 0 2 fun _ _ => true).grid
      ∧ (update (App.new 0 2 fun _ _ => true)).stats.generation =
          (App.new 0 2 fun _ _ => true).stats.generation + 1
      ∧ (update (App.new 0 2 fun _ _ => true)).stats.cells_created =
          (App.new 0 2 fun _ _ => true).stats.cells_created
      ∧ (update (App.new 0 2 fun _ _ => true)).stats.cells_destroyed =
          (App.new 0 2 fun _ _ => true).stats.cells_destroyed
      ∧ (update (App.new 0 2 fun _ _ => true)).stats.current_population =
          countAliveGrid (App.new 0 2 fun _ _ => true).grid
      ∧ (update (App.new 0 2 fun _ _ => true)).running = (App.new 0 2 fun _ _ => true).running
      ∧ (update (App.new 0 2 fun _ _ => true)).width = (App.new 0 2 fun _ _ => true).width
      ∧ (update (App.new 0 2 fun _ _ => true)).height = (App.new 0 2 fun _ _ => true).height) :=
  ⟨Or.inl rfl, C10_degenerate_total 1 3 (fun _ _ => true) (App.new 0 2 fun _ _ => true) (Or.inl rfl)⟩

end GameOfLife
